import Mathlib

/-!
Shallow embedding of the govw daemon supervisor: the daemon handle and the
model record, the recreate (hot-reload) step from utils.go, the health
check loop IsExist with the workers-count failure handling, the TCP
connection pool made by Run, and the line-termination step of Predict.
Machine integers of the Go source are modelled as Int (ports, worker
counts, modification times) and Nat (loop counters, bytes); fallible calls
return Option or Except.
-/

namespace Govw

/-- Filesystem model: maps a file path to the modification time that
os.Stat reports for it, or none when the stat call fails. -/
def FS : Type := String → Option Int

/-- The default VW port (const DefaultPort = 26542). -/
def DefaultPort : Int := 26542

/-- Byte code of the end-of-line symbol (const endOfLine = 10). -/
def endOfLine : Nat := 10

/-- VWModel holds information about the VW model file: its path, the
last-observed modification time, and the updatable flag. -/
structure VWModel where
  Path : String
  ModTime : Int
  Updatable : Bool
deriving DecidableEq

/-- VWDaemon holds information about the VW daemon: binary path, port,
children count, model reference and test flag.  The Quite field is
referenced by RecreateDaemon in utils.go (d.Quite) and listed among the
spec's Daemon Handle settings; its declaration is missing from the copy of
the daemon source under src, so — modelled from the spec — it is carried
here as one more boolean setting.  The TCPQueue channel is modelled
separately as PoolState. -/
structure VWDaemon where
  BinPath : String
  Port : Int
  Children : Int
  Model : VWModel
  Test : Bool
  Quite : Bool
deriving DecidableEq

/-- NewDaemon stats the model file and builds the daemon record; a failed
stat is fatal (log.Fatal), modelled as none.  Modelled from the spec: the
quite parameter follows the seven-argument call in utils.go line 42 and
the spec's settings list, the declaration under src omitting it.  The
background model-watcher goroutine started for updatable daemons is I/O
and stays outside the embedding. -/
def NewDaemon (fs : FS) (binPath : String) (port : Int) (children : Int)
    (modelPath : String) (test : Bool) (quite : Bool) (updatable : Bool) :
    Option VWDaemon :=
  match fs modelPath with
  | none => none
  | some t =>
    some { BinPath := binPath, Port := port, Children := children,
           Model := { Path := modelPath, ModTime := t, Updatable := updatable },
           Test := test, Quite := quite }

/-- Pure core of RecreateDaemon from utils.go: pick the alternate port
(default plus one when currently on the default port, the default
otherwise), then build the replacement daemon through NewDaemon with the
old handle's settings.  Run failures and the missing model file are fatal
(log.Fatal), modelled as none. -/
def RecreateDaemon (fs : FS) (d : VWDaemon) : Option VWDaemon :=
  let port : Int := if d.Port = DefaultPort then d.Port + 1 else DefaultPort
  NewDaemon fs d.BinPath port d.Children d.Model.Path d.Test d.Quite d.Model.Updatable

/-- Heap embedding of the pointer write at the end of RecreateDaemon:
daemon handles live in a list, a reference is an index into it, and the
assignment writing the new record through the pointer becomes a set at
that index.  Every alias of the reference afterwards reads the new
contents; no fresh reference is produced. -/
def recreateHeap (fs : FS) (heap : List VWDaemon) (r : Nat) :
    Option (List VWDaemon) :=
  match heap.get? r with
  | none => none
  | some d => (RecreateDaemon fs d).map (fun dn => heap.set r dn)

/-- The port-alternation function that RecreateDaemon applies. -/
def alternatePort (p : Int) : Int :=
  if p = DefaultPort then p + 1 else DefaultPort

/-- The command string built by Run (daemon source, lines 98 to 106): the
literal program name vw, the daemon options, then optionally the model
path after -i (with the source's two spaces) and the test switch. -/
def BuildRunCmd (vw : VWDaemon) : String :=
  let cmd := "vw --daemon --threads --quiet --port " ++ toString vw.Port ++
    " --num_children " ++ toString vw.Children
  let cmd := if vw.Model.Path ≠ "" then cmd ++ " -i  " ++ vw.Model.Path else cmd
  if vw.Test then cmd ++ " -t" else cmd

/-- State of the TCP connection channel: connections sitting in the queue
and connections currently checked out by callers of Predict. -/
structure PoolState where
  available : Nat
  checkedOut : Nat
deriving DecidableEq

/-- One pool operation: receiving a connection from the channel (Predict,
line 146) or sending it back (line 158). -/
inductive PoolOp
  | checkout
  | checkin
deriving DecidableEq

/-- Channel semantics: a receive on an empty channel blocks, so the state
is unchanged until a connection is checked back in; a checkin returns a
previously checked-out connection.  No operation creates a connection. -/
def poolStep (s : PoolState) : PoolOp → PoolState
  | .checkout =>
    if s.available = 0 then s
    else { available := s.available - 1, checkedOut := s.checkedOut + 1 }
  | .checkin =>
    if s.checkedOut = 0 then s
    else { available := s.available + 1, checkedOut := s.checkedOut - 1 }

/-- Run a sequence of pool operations from a starting state. -/
def poolRun (s : PoolState) (ops : List PoolOp) : PoolState :=
  ops.foldl poolStep s

/-- The fill loop of makeTCPConnQueue: one fresh connection is pushed into
the queue per iteration. -/
def fillPool : Nat → PoolState → PoolState
  | 0, s => s
  | n + 1, s => fillPool n { available := s.available + 1, checkedOut := s.checkedOut }

/-- Capacity of the channel made in Run line 118: vw.Children / 2 with
Go integer division, which truncates toward zero (Int.tdiv). -/
def poolCapacity (children : Int) : Int := Int.tdiv children 2

/-- The pool as Run creates it: a channel of capacity Children / 2 that
makeTCPConnQueue fills with size = Children / 2 connections. -/
def initPool (children : Int) : PoolState :=
  fillPool (poolCapacity children).toNat { available := 0, checkedOut := 0 }

/-- Outcome of IsExist: found is the early true return, notFound the false
return after the loop with the last poll error free, fatal the log.Fatal
hit when the loop is exhausted and the last poll's WorkersCount returned
an error. -/
inductive ExistOutcome
  | found
  | notFound
  | fatal
deriving DecidableEq

/-- The count assigned by the statement count, err = vw.WorkersCount():
on error the method returns 0 together with the error. -/
def countOf : Except Unit Int → Int
  | .ok c => c
  | .error _ => 0

/-- Whether a WorkersCount call returned an error. -/
def isErr : Except Unit Int → Bool
  | .ok _ => false
  | .error _ => true

/-- The IsExist loop over the list of poll results, threading the err
variable exactly as the Go loop does: each iteration overwrites count and
err, the early true return fires when count equals children + 1, and after
the loop the last error, if any, is fatal.  The second component counts
how many polls were performed. -/
def IsExistGo (children : Int) :
    List (Except Unit Int) → Bool → ExistOutcome × Nat
  | [], lastErr =>
    (if lastErr then ExistOutcome.fatal else ExistOutcome.notFound, 0)
  | r :: rest, _ =>
    if countOf r = children + 1 then (ExistOutcome.found, 1)
    else
      let p := IsExistGo children rest (isErr r)
      (p.1, p.2 + 1)

/-- IsExist polls the count source once per loop iteration, tries times,
starting from err = nil. -/
def IsExist (children : Int) (tries : Nat) (src : Nat → Except Unit Int) :
    ExistOutcome × Nat :=
  IsExistGo children ((List.range tries).map src) false

/-- State-passing embedding of IsChanged on a model reference: stat the
path (the panic on a failed stat is the error case), then compare the
stored ModTime with the fresh one.  The receiver is returned as the method
leaves it; the body never assigns to it. -/
def IsChanged (fs : FS) (m : VWModel) : Except Unit (Bool × VWModel) :=
  match fs m.Path with
  | none => Except.error ()
  | some t => Except.ok (if m.ModTime ≠ t then true else false, m)

/-- The line-termination step at the top of Predict: index the last byte
of the request — an out-of-range panic on an empty slice, modelled as
none — and append the newline byte when it is absent. -/
def ensureEOL (pData : List Nat) : Option (List Nat) :=
  match pData.getLast? with
  | none => none
  | some b => if b ≠ endOfLine then some (pData ++ [endOfLine]) else some pData

/-- Pool interactions performed by one Predict call. -/
inductive PredictEvent
  | checkoutEv
  | checkinEv
deriving DecidableEq

/-- Predict in the order of the source: the line-termination step comes
first, and only afterwards the channel receive and the final send; on the
empty slice the panic fires before any pool interaction, so the event
trace is empty. -/
def PredictTrace (pData : List Nat) : Option (List Nat) × List PredictEvent :=
  match ensureEOL pData with
  | none => (none, [])
  | some wire => (some wire, [PredictEvent.checkoutEv, PredictEvent.checkinEv])

/-- A filesystem sample where every path stats with modification time 7. -/
def fsSample : FS := fun _ => some 7

/-- A concrete daemon on the default port. -/
def dSample : VWDaemon :=
  { BinPath := "vw", Port := DefaultPort, Children := 4,
    Model := { Path := "model.vw", ModTime := 3, Updatable := true },
    Test := false, Quite := false }

/-- The daemon that RecreateDaemon builds from dSample under fsSample. -/
def dSampleNew : VWDaemon :=
  { BinPath := "vw", Port := DefaultPort + 1, Children := 4,
    Model := { Path := "model.vw", ModTime := 7, Updatable := true },
    Test := false, Quite := false }

theorem list_get_some_lt {α : Type} (l : List α) (i : Nat) (a : α)
    (h : l.get? i = some a) : i < l.length :=
  (List.get?_eq_some.mp h).1

theorem list_set_get_self {α : Type} :
    ∀ (l : List α) (i : Nat) (a : α), i < l.length → (l.set i a).get? i = some a := by
  intro l
  induction l with
  | nil => intro i a h; simp at h
  | cons x xs ih =>
    intro i a h
    cases i with
    | zero => simp
    | succ n =>
      rw [List.set_cons_succ, List.get?_cons_succ]
      exact ih n a (by simpa using h)

/-- Claim C1: after a successful recreate through a daemon reference, any
alias of that same reference reads the new instance's fields — in
particular the new, alternate port — because the write goes through the
original reference in place; no fresh reference is handed out. -/
theorem recreate_inplace_alias (fs : FS) (heap heap2 : List VWDaemon)
    (r r2 : Nat) (d : VWDaemon)
    (halias : r2 = r) (hget : heap.get? r = some d)
    (hrec : recreateHeap fs heap r = some heap2) :
    ∃ dn, RecreateDaemon fs d = some dn ∧ heap2.get? r2 = some dn ∧
      dn.Port = alternatePort d.Port := by
  subst halias
  have hrec2 : (RecreateDaemon fs d).map (fun dn => heap.set r2 dn) = some heap2 := by
    unfold recreateHeap at hrec
    rw [hget] at hrec
    exact hrec
  cases hr : RecreateDaemon fs d with
  | none => rw [hr] at hrec2; simp at hrec2
  | some dn =>
    rw [hr] at hrec2
    simp only [Option.map_some', Option.some.injEq] at hrec2
    rename' hrec2 => hrec
    refine ⟨dn, rfl, ?_, ?_⟩
    · rw [← hrec]
      exact list_set_get_self heap r2 dn (list_get_some_lt heap r2 d hget)
    · unfold RecreateDaemon NewDaemon at hr
      cases hfs : fs d.Model.Path with
      | none => rw [hfs] at hr; simp at hr
      | some t =>
        rw [hfs] at hr
        simp only [Option.some.injEq] at hr
        rw [← hr]
        rfl

theorem recreate_inplace_alias_witness :
    ∃ dn, RecreateDaemon fsSample dSample = some dn ∧
      ([dSampleNew] : List VWDaemon).get? 0 = some dn ∧
      dn.Port = alternatePort dSample.Port :=
  recreate_inplace_alias fsSample [dSample] [dSampleNew] 0 0 dSample rfl rfl rfl

/-- Claim C2: recreate picks the default port plus one when the current
port is the default and reverts to the default otherwise; the alternation
visits exactly two ports, since every alternate port is the default or the
default plus one, consecutive picks always differ, and on those two ports
the alternation is an involution. -/
theorem recreate_port_alternation :
    (∀ (fs : FS) (d d2 : VWDaemon), RecreateDaemon fs d = some d2 →
      d2.Port = alternatePort d.Port) ∧
    (∀ p : Int, alternatePort p = DefaultPort ∨ alternatePort p = DefaultPort + 1) ∧
    (∀ p : Int, alternatePort (alternatePort p) ≠ alternatePort p) ∧
    (∀ p : Int, (p = DefaultPort ∨ p = DefaultPort + 1) →
      alternatePort (alternatePort p) = p) := by
  refine ⟨?_, ?_, ?_, ?_⟩
  · intro fs d d2 hr
    unfold RecreateDaemon NewDaemon at hr
    cases hfs : fs d.Model.Path with
    | none => rw [hfs] at hr; simp at hr
    | some t =>
      rw [hfs] at hr
      simp only [Option.some.injEq] at hr
      rw [← hr]
      rfl
  · intro p
    unfold alternatePort
    split
    · rename_i h; right; rw [h]
    · left; rfl
  · intro p
    unfold alternatePort DefaultPort
    split_ifs <;> omega
  · intro p hp
    unfold alternatePort DefaultPort
    rcases hp with h | h <;> rw [h] <;> unfold DefaultPort <;> split_ifs <;> omega

theorem recreate_port_alternation_witness :
    RecreateDaemon fsSample dSample = some dSampleNew ∧
    dSampleNew.Port = alternatePort dSample.Port :=
  ⟨rfl, recreate_port_alternation.1 fsSample dSample dSampleNew rfl⟩

/-- Claim C3: the replacement daemon built by recreate keeps the old
handle's binary path, worker count, model path, test flag, quiet flag and
updatable flag, while the port always changes. -/
theorem recreate_preserves_settings (fs : FS) (d d2 : VWDaemon)
    (hrec : RecreateDaemon fs d = some d2) :
    d2.BinPath = d.BinPath ∧ d2.Children = d.Children ∧
    d2.Model.Path = d.Model.Path ∧ d2.Test = d.Test ∧ d2.Quite = d.Quite ∧
    d2.Model.Updatable = d.Model.Updatable ∧ d2.Port ≠ d.Port := by
  unfold RecreateDaemon NewDaemon at hrec
  cases hfs : fs d.Model.Path with
  | none => rw [hfs] at hrec; simp at hrec
  | some t =>
    rw [hfs] at hrec
    simp only [Option.some.injEq] at hrec
    rw [← hrec]
    refine ⟨rfl, rfl, rfl, rfl, rfl, rfl, ?_⟩
    simp only
    unfold DefaultPort
    split_ifs <;> omega

theorem recreate_preserves_settings_witness :
    dSampleNew.BinPath = dSample.BinPath ∧ dSampleNew.Children = dSample.Children ∧
    dSampleNew.Model.Path = dSample.Model.Path ∧ dSampleNew.Test = dSample.Test ∧
    dSampleNew.Quite = dSample.Quite ∧
    dSampleNew.Model.Updatable = dSample.Model.Updatable ∧
    dSampleNew.Port ≠ dSample.Port :=
  recreate_preserves_settings fsSample dSample dSampleNew rfl

theorem isExistGo_snd_le (c : Int) :
    ∀ (rs : List (Except Unit Int)) (e : Bool), (IsExistGo c rs e).2 ≤ rs.length := by
  intro rs
  induction rs with
  | nil => intro e; simp [IsExistGo]
  | cons r rest ih =>
    intro e
    unfold IsExistGo
    by_cases h : countOf r = c + 1
    · simp [h]
    · simp only [h, if_false]
      have := ih (isErr r)
      simp only [List.length_cons]
      omega

theorem isExistGo_no_match_last (c : Int) :
    ∀ (rs : List (Except Unit Int)) (r : Except Unit Int) (e : Bool),
      (∀ x ∈ rs, countOf x ≠ c + 1) → countOf r ≠ c + 1 →
      IsExistGo c (rs ++ [r]) e =
        (if isErr r then ExistOutcome.fatal else ExistOutcome.notFound,
          rs.length + 1) := by
  intro rs
  induction rs with
  | nil =>
    intro r e _ hr
    simp [IsExistGo, hr]
  | cons x xs ih =>
    intro r e hall hr
    have hx : countOf x ≠ c + 1 := hall x (by simp)
    rw [List.cons_append]
    unfold IsExistGo
    simp only [hx, if_false]
    rw [ih r (isErr x) (fun y hy => hall y (by simp [hy])) hr]
    simp [List.length_cons]

theorem isExistGo_found (c : Int) :
    ∀ (rs1 : List (Except Unit Int)) (r : Except Unit Int)
      (rs2 : List (Except Unit Int)) (e : Bool),
      (∀ x ∈ rs1, countOf x ≠ c + 1) → countOf r = c + 1 →
      IsExistGo c (rs1 ++ r :: rs2) e = (ExistOutcome.found, rs1.length + 1) := by
  intro rs1
  induction rs1 with
  | nil =>
    intro r rs2 e _ hr
    simp [IsExistGo, hr]
  | cons x xs ih =>
    intro r rs2 e hall hr
    have hx : countOf x ≠ c + 1 := hall x (by simp)
    rw [List.cons_append]
    unfold IsExistGo
    simp only [hx, if_false]
    rw [ih r rs2 (isErr x) (fun y hy => hall y (by simp [hy])) hr]
    simp [List.length_cons]

theorem range_split (k m : Nat) :
    List.range (k + 1 + m) =
      List.range k ++ k :: (List.range m).map (fun x => k + 1 + x) := by
  rw [List.range_add, List.range_succ, List.append_assoc, List.singleton_append]

/-- Claim C4: with tries at least one and a count source that always
answers, IsExist polls at most tries times, returns found after exactly
k + 1 polls when the first count matching children + 1 appears at poll k
(performing no further polls), and returns notFound after exactly tries
polls when no count matches. -/
theorem isExist_poll_convergence (c : Int) (tries : Nat) (f : Nat → Int)
    (htries : 1 ≤ tries) :
    (IsExist c tries (fun i => Except.ok (f i))).2 ≤ tries ∧
    (∀ k, k < tries → f k = c + 1 → (∀ j, j < k → f j ≠ c + 1) →
      IsExist c tries (fun i => Except.ok (f i)) = (ExistOutcome.found, k + 1)) ∧
    ((∀ i, i < tries → f i ≠ c + 1) →
      IsExist c tries (fun i => Except.ok (f i)) = (ExistOutcome.notFound, tries)) := by
  refine ⟨?_, ?_, ?_⟩
  · have := isExistGo_snd_le c ((List.range tries).map (fun i => Except.ok (f i))) false
    simpa [IsExist] using this
  · intro k hk hfk hbefore
    have hsplit : tries = k + 1 + (tries - (k + 1)) := by omega
    unfold IsExist
    rw [hsplit, range_split, List.map_append, List.map_cons]
    rw [isExistGo_found c _ _ _ _ ?_ (by simpa [countOf] using hfk)]
    · simp
    · intro x hx
      obtain ⟨j, hj, rfl⟩ := List.mem_map.mp hx
      have hjk : j < k := List.mem_range.mp hj
      simpa [countOf] using hbefore j hjk
  · intro hnone
    obtain ⟨t, rfl⟩ : ∃ t, tries = t + 1 := ⟨tries - 1, by omega⟩
    unfold IsExist
    rw [List.range_succ, List.map_append, List.map_singleton]
    rw [isExistGo_no_match_last c _ _ _ ?_ (by simpa [countOf] using hnone t (by omega))]
    · simp [isErr]
    · intro x hx
      obtain ⟨j, hj, rfl⟩ := List.mem_map.mp hx
      have hjt : j < t := List.mem_range.mp hj
      simpa [countOf] using hnone j (by omega)

/-- The count source of the C4 witness: the expected count 2 appears on
the second poll. -/
def fC4 : Nat → Int := fun i => if i = 0 then 0 else 2

theorem isExist_poll_convergence_witness :
    IsExist 1 2 (fun i => Except.ok (fC4 i)) = (ExistOutcome.found, 2) :=
  (isExist_poll_convergence 1 2 fC4 (by decide)).2.1 1 (by decide) (by decide)
    (by decide)

/-- A count source that fails on the first poll and reports the expected
count on the second. -/
def srcRecover : Nat → Except Unit Int :=
  fun i => if i = 0 then Except.error () else Except.ok 2

/-- Claim C5 counterexample: with children = 1 and two polls, the count
query fails on the first poll and succeeds with the expected count 2 on
the second; IsExist returns found after the second poll, so a count-query
failure IS recovered by a subsequent poll attempt, refuting the claim that
such a failure is fatal rather than retried. -/
theorem isExist_failure_recovered :
    IsExist 1 2 srcRecover = (ExistOutcome.found, 2) := by decide

/-- Claim C5 amended: a failing count query makes the health check fatal
only when the failure lands on the final poll and no poll observed the
expected count; the loop keeps polling after a failure, the error variable
being overwritten by each later poll, and when the last poll answers
without error the check merely returns notFound. -/
theorem isExist_fatal_last_poll (c : Int) (tries : Nat)
    (src : Nat → Except Unit Int) (htries : 1 ≤ tries)
    (hnone : ∀ i, i < tries → countOf (src i) ≠ c + 1) :
    IsExist c tries src =
      (if isErr (src (tries - 1)) then ExistOutcome.fatal else ExistOutcome.notFound,
        tries) := by
  obtain ⟨t, rfl⟩ : ∃ t, tries = t + 1 := ⟨tries - 1, by omega⟩
  unfold IsExist
  rw [List.range_succ, List.map_append, List.map_singleton]
  rw [isExistGo_no_match_last c _ _ _ ?_ (hnone t (by omega))]
  · simp
  · intro x hx
    obtain ⟨j, hj, rfl⟩ := List.mem_map.mp hx
    have hjt : j < t := List.mem_range.mp hj
    exact hnone j (by omega)

/-- A count source that answers a wrong count on the first poll and fails
on the second, final poll. -/
def srcFatal : Nat → Except Unit Int :=
  fun i => if i = 0 then Except.ok 0 else Except.error ()

theorem isExist_fatal_last_poll_witness :
    IsExist 1 2 srcFatal =
      (if isErr (srcFatal 1) then ExistOutcome.fatal else ExistOutcome.notFound, 2) :=
  isExist_fatal_last_poll 1 2 srcFatal (by decide) (by decide)

theorem fillPool_available :
    ∀ (n : Nat) (s : PoolState), (fillPool n s).available = s.available + n := by
  intro n
  induction n with
  | zero => intro s; rfl
  | succ m ih =>
    intro s
    unfold fillPool
    rw [ih]
    show s.available + 1 + m = s.available + (m + 1)
    omega

theorem fillPool_checkedOut :
    ∀ (n : Nat) (s : PoolState), (fillPool n s).checkedOut = s.checkedOut := by
  intro n
  induction n with
  | zero => intro s; rfl
  | succ m ih =>
    intro s
    unfold fillPool
    rw [ih]

theorem poolStep_sum (s : PoolState) (op : PoolOp) :
    (poolStep s op).available + (poolStep s op).checkedOut =
      s.available + s.checkedOut := by
  cases op <;> unfold poolStep <;> split_ifs <;> simp <;> omega

theorem poolRun_sum :
    ∀ (ops : List PoolOp) (s : PoolState),
      (poolRun s ops).available + (poolRun s ops).checkedOut =
        s.available + s.checkedOut := by
  intro ops
  induction ops with
  | nil => intro s; simp [poolRun]
  | cons op rest ih =>
    intro s
    unfold poolRun at ih ⊢
    rw [List.foldl_cons, ih (poolStep s op), poolStep_sum]

/-- Claim C6: Run makes the channel with capacity Children / 2 and
makeTCPConnQueue fills it with exactly Children / 2 connections; any
sequence of checkout and checkin operations conserves the total number of
connections, so the number simultaneously checked out never exceeds
Children / 2; and a checkout on an empty pool blocks — the state is
unchanged — instead of creating a new connection. -/
theorem pool_bound (children : Int) (ops : List PoolOp) :
    (initPool children).available = (poolCapacity children).toNat ∧
    (initPool children).checkedOut = 0 ∧
    (poolRun (initPool children) ops).available +
        (poolRun (initPool children) ops).checkedOut =
      (poolCapacity children).toNat ∧
    (poolRun (initPool children) ops).checkedOut ≤ (poolCapacity children).toNat ∧
    (∀ s : PoolState, s.available = 0 → poolStep s PoolOp.checkout = s) := by
  have hA : (initPool children).available = (poolCapacity children).toNat := by
    unfold initPool
    rw [fillPool_available]
    show 0 + (poolCapacity children).toNat = (poolCapacity children).toNat
    omega
  have hB : (initPool children).checkedOut = 0 := by
    unfold initPool
    rw [fillPool_checkedOut]
  have hsum := poolRun_sum ops (initPool children)
  rw [hA, hB] at hsum
  refine ⟨hA, hB, by omega, by omega, ?_⟩
  intro s hs
  unfold poolStep
  rw [hs]
  rfl

theorem pool_bound_witness :
    poolStep { available := 0, checkedOut := 2 } PoolOp.checkout =
      { available := 0, checkedOut := 2 } :=
  (pool_bound 4 []).2.2.2.2 { available := 0, checkedOut := 2 } rfl

/-- A daemon whose configured binary path is not the literal vw. -/
def dC7 : VWDaemon :=
  { BinPath := "mybinary", Port := DefaultPort, Children := 4,
    Model := { Path := "model.vw", ModTime := 0, Updatable := false },
    Test := false, Quite := false }

/-- Claim C7 counterexample: for a daemon whose configured binary path is
mybinary, the command built by Run is not the configured binary path
followed by the options with a single-spaced -i argument; the source
hardcodes the program name vw and writes two spaces after -i. -/
theorem buildCmd_literal_vw :
    BuildRunCmd dC7 =
      "vw --daemon --threads --quiet --port 26542 --num_children 4 -i  model.vw" ∧
    BuildRunCmd dC7 ≠
      "mybinary --daemon --threads --quiet --port 26542 --num_children 4 -i model.vw" := by
  constructor <;> decide

/-- Claim C7 amended: the command issued by Run ignores the configured
binary path entirely — it is the same string for every BinPath — and is
the literal program name vw followed by the daemon options, with two
spaces between -i and the model path appended exactly when the model path
is non-empty, and the test switch appended exactly when the test flag is
set. -/
theorem buildCmd_format :
    (∀ (d : VWDaemon) (b : String),
      BuildRunCmd { d with BinPath := b } = BuildRunCmd d) ∧
    (∀ d : VWDaemon,
      BuildRunCmd d =
        "vw --daemon --threads --quiet --port " ++ toString d.Port ++
          " --num_children " ++ toString d.Children ++
          (if d.Model.Path = "" then "" else " -i  " ++ d.Model.Path) ++
          (if d.Test then " -t" else "")) := by
  constructor
  · intro d b
    rfl
  · intro d
    unfold BuildRunCmd
    by_cases hm : d.Model.Path = "" <;> by_cases ht : d.Test <;>
      simp [hm, ht, String.append_assoc]

/-- Claim C8: the line-termination step of Predict on a non-empty request
leaves a newline-terminated request unchanged, appends exactly one newline
byte to a request not ending in one, and is idempotent: applied to its own
output it returns it unchanged, so no double terminator ever appears. -/
theorem predict_eol_idempotent (p : List Nat) (hp : p ≠ []) :
    (p.getLast? = some endOfLine → ensureEOL p = some p) ∧
    (∀ b, p.getLast? = some b → b ≠ endOfLine →
      ensureEOL p = some (p ++ [endOfLine])) ∧
    (∀ q, ensureEOL p = some q → ensureEOL q = some q) := by
  refine ⟨?_, ?_, ?_⟩
  · intro h
    unfold ensureEOL
    rw [h]
    simp
  · intro b hb hne
    unfold ensureEOL
    rw [hb]
    simp [hne]
  · intro q hq
    unfold ensureEOL at hq
    cases hl : p.getLast? with
    | none => rw [hl] at hq; cases hq
    | some b =>
      rw [hl] at hq
      by_cases hbe : b = endOfLine
      · rw [hbe] at hq
        simp only [ne_eq, not_true_eq_false, if_false, Option.some.injEq] at hq
        subst hq
        unfold ensureEOL
        rw [hl, hbe]
        simp
      · simp only [ne_eq, hbe, not_false_eq_true, if_true, Option.some.injEq] at hq
        subst hq
        unfold ensureEOL
        rw [List.getLast?_concat]
        simp

theorem predict_eol_idempotent_witness :
    ensureEOL [65] = some ([65] ++ [endOfLine]) :=
  (predict_eol_idempotent [65] (by decide)).2.1 65 rfl (by decide)

/-- Claim C9: IsChanged answers true exactly when the freshly statted
modification time differs from the stored one and leaves the model
reference untouched; the stored timestamp is replaced only by a successful
recreate, whose replacement daemon carries a model reference statted at
build time. -/
theorem isChanged_pure :
    (∀ (fs : FS) (m : VWModel) (t : Int) (b : Bool) (m2 : VWModel),
      fs m.Path = some t → IsChanged fs m = Except.ok (b, m2) →
      m2 = m ∧ (b = true ↔ m.ModTime ≠ t)) ∧
    (∀ (fs : FS) (d d2 : VWDaemon), RecreateDaemon fs d = some d2 →
      fs d.Model.Path = some d2.Model.ModTime) := by
  constructor
  · intro fs m t b m2 hfs hok
    unfold IsChanged at hok
    rw [hfs] at hok
    simp only [Except.ok.injEq, Prod.mk.injEq] at hok
    obtain ⟨hb, hm⟩ := hok
    subst hm
    refine ⟨rfl, ?_⟩
    by_cases h : m.ModTime = t
    · simp [h] at hb
      simp [← hb, h]
    · simp [h] at hb
      simp [← hb, h]
  · intro fs d d2 hrec
    unfold RecreateDaemon NewDaemon at hrec
    cases hfs : fs d.Model.Path with
    | none => rw [hfs] at hrec; simp at hrec
    | some t =>
      rw [hfs] at hrec
      simp only [Option.some.injEq] at hrec
      rw [← hrec]

theorem isChanged_pure_witness :
    dSample.Model = dSample.Model ∧ (true = true ↔ dSample.Model.ModTime ≠ 7) :=
  isChanged_pure.1 fsSample dSample.Model 7 true dSample.Model rfl rfl

/-- Claim C10: Predict is total only for non-empty requests: on the empty
request the very first step, indexing the last byte of the slice, fails
before any connection is checked out — the pool event trace is empty —
while every non-empty request produces a wire payload and reaches the
checkout and the checkin. -/
theorem predict_empty_unsafe :
    PredictTrace [] = (none, []) ∧
    (∀ p : List Nat, p ≠ [] →
      ∃ w, PredictTrace p =
        (some w, [PredictEvent.checkoutEv, PredictEvent.checkinEv])) := by
  constructor
  · rfl
  · intro p hp
    have hsome : p.getLast?.isSome = true := List.getLast?_isSome.mpr hp
    obtain ⟨b, hb⟩ := Option.isSome_iff_exists.mp hsome
    unfold PredictTrace ensureEOL
    rw [hb]
    by_cases hbe : b = endOfLine
    · exact ⟨p, by simp [hbe]⟩
    · exact ⟨p ++ [endOfLine], by simp [hbe]⟩

theorem predict_empty_unsafe_witness :
    ∃ w, PredictTrace [65] =
      (some w, [PredictEvent.checkoutEv, PredictEvent.checkinEv]) :=
  predict_empty_unsafe.2 [65] (by decide)

end Govw
